import Mathlib

/-!
Shallow embedding of the `spacetimedb_math` core (src/vec3.rs and
src/conventions.rs).  The library's `Scalar` is an IEEE floating-point
type; here it is modelled as a real number, so every arithmetic identity
is exact.  All definitions mirror the Rust source line by line.
-/

namespace SpacetimeMath

/-- The library's `Scalar` element type, modelled as a real number. -/
abbrev Scalar : Type := ℝ

/-- `Vec3` from src/vec3.rs: a 3-dimensional vector with `x`, `y`, `z`. -/
structure Vec3 where
  x : Scalar
  y : Scalar
  z : Scalar

namespace Vec3

/-- `Vec3::new`. -/
def new (x y z : Scalar) : Vec3 := ⟨x, y, z⟩

/-- `Vec3::ZERO`. -/
def ZERO : Vec3 := new 0 0 0

/-- `Vec3::ONE`. -/
def ONE : Vec3 := new 1 1 1

/-- `Vec3::dot`. -/
def dot (v other : Vec3) : Scalar :=
  v.x * other.x + v.y * other.y + v.z * other.z

/-- `Vec3::cross`. -/
def cross (v other : Vec3) : Vec3 :=
  new (v.y * other.z - v.z * other.y)
      (v.z * other.x - v.x * other.z)
      (v.x * other.y - v.y * other.x)

/-- `Vec3::length_squared`. -/
def length_squared (v : Vec3) : Scalar :=
  v.x * v.x + v.y * v.y + v.z * v.z

/-- `Vec3::length`. -/
noncomputable def length (v : Vec3) : Scalar :=
  Real.sqrt v.length_squared

/-- `Vec3::normalize_or`. -/
noncomputable def normalize_or (v : Vec3) (epsilon : Scalar) (fallback : Vec3) : Vec3 :=
  let len_sq := v.length_squared
  let epsilon_sq := epsilon * epsilon
  if len_sq ≤ epsilon_sq then
    fallback
  else
    let len := Real.sqrt len_sq
    new (v.x / len) (v.y / len) (v.z / len)

/-- `Vec3::normalize_or_zero`. -/
noncomputable def normalize_or_zero (v : Vec3) (epsilon : Scalar) : Vec3 :=
  v.normalize_or epsilon ZERO

/-- `Vec3::try_normalize`. -/
noncomputable def try_normalize (v : Vec3) (epsilon : Scalar) : Option Vec3 :=
  let len_sq := v.length_squared
  let epsilon_sq := epsilon * epsilon
  if len_sq ≤ epsilon_sq then
    none
  else
    let len := Real.sqrt len_sq
    some (new (v.x / len) (v.y / len) (v.z / len))

/-- Component-wise negation, used to state the mirrored-handedness claim. -/
def neg (v : Vec3) : Vec3 := new (-v.x) (-v.y) (-v.z)

end Vec3

/-- `Axes` from src/conventions.rs: an up/forward/right triple. -/
structure Axes where
  up : Vec3
  forward : Vec3
  right : Vec3

namespace Axes

/-- `Axes::try_right_handed`, with Rust's `?` operator written as a match. -/
noncomputable def try_right_handed (up forward : Vec3) (epsilon : Scalar) : Option Axes :=
  match up.try_normalize epsilon with
  | none => none
  | some up =>
    match forward.try_normalize epsilon with
    | none => none
    | some forward =>
      match (forward.cross up).try_normalize epsilon with
      | none => none
      | some right =>
        some { up := up, forward := up.cross right, right := right }

/-- `Axes::try_left_handed`, with Rust's `?` operator written as a match. -/
noncomputable def try_left_handed (up forward : Vec3) (epsilon : Scalar) : Option Axes :=
  match up.try_normalize epsilon with
  | none => none
  | some up =>
    match forward.try_normalize epsilon with
    | none => none
    | some forward =>
      match (up.cross forward).try_normalize epsilon with
      | none => none
      | some right =>
        some { up := up, forward := right.cross up, right := right }

end Axes

/-- `Y_UP_RIGHT_HANDED_FWD_NEG_Z` preset. -/
def Y_UP_RIGHT_HANDED_FWD_NEG_Z : Axes :=
  { up := Vec3.new 0 1 0
  , forward := Vec3.new 0 0 (-1)
  , right := Vec3.new 1 0 0 }

/-- `Y_UP_RIGHT_HANDED_FWD_POS_Z` preset. -/
def Y_UP_RIGHT_HANDED_FWD_POS_Z : Axes :=
  { up := Vec3.new 0 1 0
  , forward := Vec3.new 0 0 1
  , right := Vec3.new (-1) 0 0 }

/-- `Y_UP_LEFT_HANDED_FWD_POS_Z` preset. -/
def Y_UP_LEFT_HANDED_FWD_POS_Z : Axes :=
  { up := Vec3.new 0 1 0
  , forward := Vec3.new 0 0 1
  , right := Vec3.new 1 0 0 }

/-- `Z_UP_RIGHT_HANDED_FWD_POS_Y` preset. -/
def Z_UP_RIGHT_HANDED_FWD_POS_Y : Axes :=
  { up := Vec3.new 0 0 1
  , forward := Vec3.new 0 1 0
  , right := Vec3.new 1 0 0 }

/-- `Z_UP_LEFT_HANDED_FWD_POS_X` preset. -/
def Z_UP_LEFT_HANDED_FWD_POS_X : Axes :=
  { up := Vec3.new 0 0 1
  , forward := Vec3.new 1 0 0
  , right := Vec3.new 0 1 0 }

/-- `DEFAULT` preset. -/
def DEFAULT : Axes := Y_UP_RIGHT_HANDED_FWD_NEG_Z

/-! ## Helper lemmas -/

/-- Negating a vector preserves its squared length. -/
theorem length_squared_neg (v : Vec3) :
    (v.neg).length_squared = v.length_squared := by
  simp only [Vec3.neg, Vec3.length_squared, Vec3.new]
  ring

/-- Normalization commutes with component-wise negation. -/
theorem try_normalize_neg (v : Vec3) (ε : Scalar) :
    (v.neg).try_normalize ε = Option.map Vec3.neg (v.try_normalize ε) := by
  simp only [Vec3.try_normalize, length_squared_neg]
  by_cases h : v.length_squared ≤ ε * ε
  · simp [h]
  · simp only [h, if_false, Option.map_some']
    simp [Vec3.neg, Vec3.new, neg_div]

/-- Cross product is anti-commutative (as in the spec's algebra notes). -/
theorem cross_anticomm (a b : Vec3) : a.cross b = (b.cross a).neg := by
  simp only [Vec3.cross, Vec3.neg, Vec3.new, Vec3.mk.injEq]
  exact ⟨by ring, by ring, by ring⟩

/-- Negation on the left operand of the cross product negates the result. -/
theorem cross_neg_left (a b : Vec3) : (a.neg).cross b = (a.cross b).neg := by
  simp only [Vec3.cross, Vec3.neg, Vec3.new, Vec3.mk.injEq]
  exact ⟨by ring, by ring, by ring⟩

/-- Evaluation of the square root of four. -/
theorem sqrt_four : Real.sqrt 4 = 2 := by
  rw [show (4 : ℝ) = 2 ^ 2 by norm_num, Real.sqrt_sq (by norm_num)]

/-- Full evaluation of `try_right_handed` at `up = (0,0,1)`,
`forward = (1,0,0)`, `epsilon = 1e-5`. -/
theorem rh_zup_fwdx_eval :
    Axes.try_right_handed (Vec3.new 0 0 1) (Vec3.new 1 0 0) 1e-5 =
      some { up := Vec3.new 0 0 1
           , forward := Vec3.new 1 0 0
           , right := Vec3.new 0 (-1) 0 } := by
  have hu : (Vec3.new 0 0 1).try_normalize (1e-5 : ℝ) = some (Vec3.new 0 0 1) := by
    norm_num [Vec3.try_normalize, Vec3.length_squared, Vec3.new, Real.sqrt_one,
      Vec3.mk.injEq]
  have hf : (Vec3.new 1 0 0).try_normalize (1e-5 : ℝ) = some (Vec3.new 1 0 0) := by
    norm_num [Vec3.try_normalize, Vec3.length_squared, Vec3.new, Real.sqrt_one,
      Vec3.mk.injEq]
  have hc : (Vec3.new 1 0 0).cross (Vec3.new 0 0 1) = Vec3.new 0 (-1) 0 := by
    norm_num [Vec3.cross, Vec3.new, Vec3.mk.injEq]
  have hr : (Vec3.new 0 (-1) 0).try_normalize (1e-5 : ℝ) = some (Vec3.new 0 (-1) 0) := by
    norm_num [Vec3.try_normalize, Vec3.length_squared, Vec3.new, Real.sqrt_one,
      Vec3.mk.injEq]
  have hfwd : (Vec3.new 0 0 1).cross (Vec3.new 0 (-1) 0) = Vec3.new 1 0 0 := by
    norm_num [Vec3.cross, Vec3.new, Vec3.mk.injEq]
  simp [Axes.try_right_handed, hu, hf, hc, hr, hfwd]

/-! ## Claim theorems -/

/-- C1: `Axes::try_right_handed` follows exactly the pipeline: normalize
`up`, normalize `forward`, `right = try_normalize(forward × up)`, re-derive
`forward = up × right`, and any degenerate normalization step short-circuits
the whole construction to `None` (no partial basis is returned). -/
theorem C1_right_handed_pipeline (up forward : Vec3) (ε : Scalar) :
    Axes.try_right_handed up forward ε =
      (up.try_normalize ε).bind (fun u =>
        (forward.try_normalize ε).bind (fun f =>
          ((f.cross u).try_normalize ε).bind (fun r =>
            some { up := u, forward := u.cross r, right := r }))) := by
  unfold Axes.try_right_handed
  cases up.try_normalize ε with
  | none => rfl
  | some u =>
    cases forward.try_normalize ε with
    | none => rfl
    | some f =>
      cases hr : (f.cross u).try_normalize ε with
      | none => simp [hr]
      | some r => simp [hr]

/-- C9: `Axes::try_left_handed` is the mirror construction: normalize `up`,
normalize `forward`, `right = try_normalize(up × forward)`, re-derive
`forward = right × up`, with the same short-circuiting degeneracy policy. -/
theorem C9_left_handed_pipeline (up forward : Vec3) (ε : Scalar) :
    Axes.try_left_handed up forward ε =
      (up.try_normalize ε).bind (fun u =>
        (forward.try_normalize ε).bind (fun f =>
          ((u.cross f).try_normalize ε).bind (fun r =>
            some { up := u, forward := r.cross u, right := r }))) := by
  unfold Axes.try_left_handed
  cases up.try_normalize ε with
  | none => rfl
  | some u =>
    cases forward.try_normalize ε with
    | none => rfl
    | some f =>
      cases hr : (u.cross f).try_normalize ε with
      | none => simp [hr]
      | some r => simp [hr]

/-- C2: `try_normalize` returns `none` exactly when
`length_squared ≤ epsilon * epsilon` and otherwise `some` of the vector
divided component-wise by its length; `normalize_or` applies the same test
and returns the fallback instead of `none`; `normalize_or_zero` is
`normalize_or` with fallback `ZERO`. -/
theorem C2_normalize_family (v : Vec3) (ε : Scalar) (fallback : Vec3) :
    (v.try_normalize ε =
      if v.length_squared ≤ ε * ε then none
      else some (Vec3.new (v.x / v.length) (v.y / v.length) (v.z / v.length))) ∧
    v.normalize_or ε fallback = (v.try_normalize ε).getD fallback ∧
    v.normalize_or_zero ε = v.normalize_or ε Vec3.ZERO := by
  refine ⟨?_, ?_, rfl⟩
  · simp only [Vec3.try_normalize, Vec3.length]
  · simp only [Vec3.try_normalize, Vec3.normalize_or]
    by_cases h : v.length_squared ≤ ε * ε <;> simp [h]

/-- C3: given identical inputs, `try_left_handed` succeeds exactly when
`try_right_handed` succeeds, and on success it yields the same `up` with the
`right` field negated component-wise. -/
theorem C3_left_mirrors_right (up forward : Vec3) (ε : Scalar) :
    Axes.try_left_handed up forward ε =
      Option.map (fun a => { up := a.up, forward := a.forward, right := a.right.neg })
        (Axes.try_right_handed up forward ε) := by
  unfold Axes.try_left_handed Axes.try_right_handed
  cases up.try_normalize ε with
  | none => rfl
  | some u =>
    cases forward.try_normalize ε with
    | none => rfl
    | some f =>
      have hm : (u.cross f).try_normalize ε
          = Option.map Vec3.neg ((f.cross u).try_normalize ε) := by
        rw [cross_anticomm u f, try_normalize_neg]
      cases hr : (f.cross u).try_normalize ε with
      | none =>
        rw [hr] at hm
        simp only [Option.map_none'] at hm
        simp [hm, hr]
      | some r =>
        rw [hr] at hm
        simp only [Option.map_some'] at hm
        have hfwd : (r.neg).cross u = u.cross r := by
          rw [cross_neg_left, ← cross_anticomm]
        simp [hm, hr, hfwd]

/-- The orthonormality contract of a right-handed `Axes` value. -/
def orthonormal_rh (a : Axes) : Prop :=
  a.up.dot a.forward = 0 ∧ a.up.dot a.right = 0 ∧ a.forward.dot a.right = 0 ∧
  a.up.length_squared = 1 ∧ a.forward.length_squared = 1 ∧ a.right.length_squared = 1 ∧
  a.right = a.forward.cross a.up

/-- The orthonormality contract of a left-handed `Axes` value. -/
def orthonormal_lh (a : Axes) : Prop :=
  a.up.dot a.forward = 0 ∧ a.up.dot a.right = 0 ∧ a.forward.dot a.right = 0 ∧
  a.up.length_squared = 1 ∧ a.forward.length_squared = 1 ∧ a.right.length_squared = 1 ∧
  a.right = a.up.cross a.forward

/-- C5: every preset `Axes` constant satisfies the orthonormality invariant
exactly: pairwise dot products are 0, each field has squared length 1, and
`right` is `forward × up` (right-handed presets) or `up × forward`
(left-handed presets); `DEFAULT` is the Y-up right-handed preset. -/
theorem C5_presets_orthonormal :
    orthonormal_rh Y_UP_RIGHT_HANDED_FWD_NEG_Z ∧
    orthonormal_rh Y_UP_RIGHT_HANDED_FWD_POS_Z ∧
    orthonormal_lh Y_UP_LEFT_HANDED_FWD_POS_Z ∧
    orthonormal_rh Z_UP_RIGHT_HANDED_FWD_POS_Y ∧
    orthonormal_lh Z_UP_LEFT_HANDED_FWD_POS_X ∧
    orthonormal_rh DEFAULT ∧ DEFAULT = Y_UP_RIGHT_HANDED_FWD_NEG_Z := by
  norm_num [orthonormal_rh, orthonormal_lh, DEFAULT,
    Y_UP_RIGHT_HANDED_FWD_NEG_Z, Y_UP_RIGHT_HANDED_FWD_POS_Z,
    Y_UP_LEFT_HANDED_FWD_POS_Z, Z_UP_RIGHT_HANDED_FWD_POS_Y,
    Z_UP_LEFT_HANDED_FWD_POS_X,
    Vec3.dot, Vec3.cross, Vec3.length_squared, Vec3.new, Vec3.mk.injEq]

/-- C10: the division branch of `try_normalize`/`normalize_or` runs only
when `length_squared > epsilon * epsilon`; in that case the divisor
`sqrt(length_squared)` is strictly positive (since `epsilon * epsilon ≥ 0`),
and in particular the exact zero vector with `epsilon = 0` takes the
degenerate branch, so division by zero never occurs. -/
theorem C10_division_guard (v : Vec3) (ε : Scalar) (fallback : Vec3) :
    (v.length_squared ≤ ε * ε →
      v.try_normalize ε = none ∧ v.normalize_or ε fallback = fallback) ∧
    (ε * ε < v.length_squared → 0 < Real.sqrt v.length_squared) ∧
    Vec3.try_normalize Vec3.ZERO 0 = none := by
  refine ⟨fun h => ⟨?_, ?_⟩, fun h => ?_, ?_⟩
  · simp [Vec3.try_normalize, h]
  · simp [Vec3.normalize_or, h]
  · exact Real.sqrt_pos.mpr (lt_of_le_of_lt (mul_self_nonneg ε) h)
  · norm_num [Vec3.try_normalize, Vec3.ZERO, Vec3.new, Vec3.length_squared]

/-- Witness for C10 at the concrete inputs `ZERO` with `epsilon = 0` and
`ONE` with `epsilon = 0`. -/
theorem C10_witness :
    Vec3.try_normalize Vec3.ZERO 0 = none ∧
    0 < Real.sqrt (Vec3.length_squared Vec3.ONE) := by
  constructor
  · exact ((C10_division_guard Vec3.ZERO 0 Vec3.ZERO).1
      (by norm_num [Vec3.length_squared, Vec3.ZERO, Vec3.new])).1
  · exact (C10_division_guard Vec3.ONE 0 Vec3.ZERO).2.1
      (by norm_num [Vec3.length_squared, Vec3.ONE, Vec3.new])

/-- C4: for the parallel inputs `up = (0,1,0)` and `forward = (0,2,0)`,
both basis constructors return `None` for every epsilon. -/
theorem C4_parallel_inputs_none (ε : Scalar) :
    Axes.try_right_handed (Vec3.new 0 1 0) (Vec3.new 0 2 0) ε = none ∧
    Axes.try_left_handed (Vec3.new 0 1 0) (Vec3.new 0 2 0) ε = none := by
  by_cases hu : (1 : ℝ) ≤ ε * ε
  · have hun : (Vec3.new 0 1 0).try_normalize ε = none := by
      norm_num [Vec3.try_normalize, Vec3.length_squared, Vec3.new, hu]
    constructor <;> simp [Axes.try_right_handed, Axes.try_left_handed, hun]
  · have hun : (Vec3.new 0 1 0).try_normalize ε = some (Vec3.new 0 1 0) := by
      norm_num [Vec3.try_normalize, Vec3.length_squared, Vec3.new, hu,
        Real.sqrt_one, Vec3.mk.injEq]
    by_cases hf : (4 : ℝ) ≤ ε * ε
    · have hfn : (Vec3.new 0 2 0).try_normalize ε = none := by
        norm_num [Vec3.try_normalize, Vec3.length_squared, Vec3.new, hf]
      constructor <;> simp [Axes.try_right_handed, Axes.try_left_handed, hun, hfn]
    · have hfn : (Vec3.new 0 2 0).try_normalize ε = some (Vec3.new 0 1 0) := by
        norm_num [Vec3.try_normalize, Vec3.length_squared, Vec3.new, hf,
          sqrt_four, Vec3.mk.injEq]
      have hcr : (Vec3.new 0 1 0).cross (Vec3.new 0 1 0) = Vec3.new 0 0 0 := by
        norm_num [Vec3.cross, Vec3.new, Vec3.mk.injEq]
      have hcn : (Vec3.new 0 0 0).try_normalize ε = none := by
        norm_num [Vec3.try_normalize, Vec3.length_squared, Vec3.new,
          mul_self_nonneg ε]
      constructor <;>
        simp [Axes.try_right_handed, Axes.try_left_handed, hun, hfn, hcr, hcn]

/-- C6: for `up = (0,1,0)`, `forward = (0,0,-1)`, `epsilon = 1e-5`,
`try_right_handed` returns exactly the `Y_UP_RIGHT_HANDED_FWD_NEG_Z`
preset. -/
theorem C6_right_handed_matches_preset :
    Axes.try_right_handed (Vec3.new 0 1 0) (Vec3.new 0 0 (-1)) 1e-5 =
      some Y_UP_RIGHT_HANDED_FWD_NEG_Z := by
  have hu : (Vec3.new 0 1 0).try_normalize (1e-5 : ℝ) = some (Vec3.new 0 1 0) := by
    norm_num [Vec3.try_normalize, Vec3.length_squared, Vec3.new, Real.sqrt_one,
      Vec3.mk.injEq]
  have hf : (Vec3.new 0 0 (-1)).try_normalize (1e-5 : ℝ)
      = some (Vec3.new 0 0 (-1)) := by
    norm_num [Vec3.try_normalize, Vec3.length_squared, Vec3.new, Real.sqrt_one,
      Vec3.mk.injEq]
  have hc : (Vec3.new 0 0 (-1)).cross (Vec3.new 0 1 0) = Vec3.new 1 0 0 := by
    norm_num [Vec3.cross, Vec3.new, Vec3.mk.injEq]
  have hr : (Vec3.new 1 0 0).try_normalize (1e-5 : ℝ) = some (Vec3.new 1 0 0) := by
    norm_num [Vec3.try_normalize, Vec3.length_squared, Vec3.new, Real.sqrt_one,
      Vec3.mk.injEq]
  have hfwd : (Vec3.new 0 1 0).cross (Vec3.new 1 0 0) = Vec3.new 0 0 (-1) := by
    norm_num [Vec3.cross, Vec3.new, Vec3.mk.injEq]
  simp [Axes.try_right_handed, hu, hf, hc, hr, hfwd, Y_UP_RIGHT_HANDED_FWD_NEG_Z]

/-- Counterexample to C7: at `up = (0,0,1)`, `forward = (1,0,0)`,
`epsilon = 1e-5`, the right-handed basis exists but its `right` field is
`(0,-1,0)`, not `(0,1,0)` as claimed. -/
theorem C7_cex :
    ¬ ∃ a, Axes.try_right_handed (Vec3.new 0 0 1) (Vec3.new 1 0 0) 1e-5 = some a ∧
      a.right = Vec3.new 0 1 0 := by
  rintro ⟨a, ha, hra⟩
  rw [rh_zup_fwdx_eval] at ha
  cases Option.some.inj ha
  simp only [Vec3.new, Vec3.mk.injEq] at hra
  norm_num at hra

/-- C7 (amended): for `up = (0,0,1)`, `forward = (1,0,0)`,
`epsilon = 1e-5`, `try_right_handed` returns `Some` of an `Axes` whose
`right` field equals `(0,-1,0)`. -/
theorem C7_right_field_amended :
    ∃ a, Axes.try_right_handed (Vec3.new 0 0 1) (Vec3.new 1 0 0) 1e-5 = some a ∧
      a.right = Vec3.new 0 (-1) 0 :=
  ⟨_, rh_zup_fwdx_eval, rfl⟩

/-- Counterexample to C8: at `v = ZERO` and `epsilon = -1` the hypothesis
`length(v) > epsilon` holds, yet `try_normalize` returns `None` rather than
`Some` of a unit vector. -/
theorem C8_cex :
    -1 < Vec3.length Vec3.ZERO ∧ Vec3.try_normalize Vec3.ZERO (-1) = none := by
  constructor
  · have h := Real.sqrt_nonneg (Vec3.length_squared Vec3.ZERO)
    unfold Vec3.length
    linarith
  · norm_num [Vec3.try_normalize, Vec3.length_squared, Vec3.ZERO, Vec3.new]

/-- C8 (amended): for every `v` and every nonnegative epsilon with
`length(v) > epsilon`, `try_normalize` returns `Some` of a vector whose
length differs from 1 by at most `1e-5`. -/
theorem C8_unit_length_amended (v : Vec3) (ε : Scalar)
    (hε : 0 ≤ ε) (h : ε < v.length) :
    ∃ u, v.try_normalize ε = some u ∧ |u.length - 1| ≤ 1e-5 := by
  have hL0 : 0 ≤ v.length_squared := by
    have hx := mul_self_nonneg v.x
    have hy := mul_self_nonneg v.y
    have hz := mul_self_nonneg v.z
    simp only [Vec3.length_squared]
    linarith
  have hsqrt : Real.sqrt v.length_squared * Real.sqrt v.length_squared
      = v.length_squared := Real.mul_self_sqrt hL0
  have hs : ε < Real.sqrt v.length_squared := h
  have hlt : ε * ε < v.length_squared := by nlinarith [Real.sqrt_nonneg v.length_squared]
  have hnot : ¬ v.length_squared ≤ ε * ε := not_le.mpr hlt
  have hLpos : 0 < v.length_squared := lt_of_le_of_lt (mul_self_nonneg ε) hlt
  refine ⟨Vec3.new (v.x / Real.sqrt v.length_squared)
            (v.y / Real.sqrt v.length_squared)
            (v.z / Real.sqrt v.length_squared), ?_, ?_⟩
  · simp [Vec3.try_normalize, hnot]
  · have hspos : 0 < Real.sqrt v.length_squared := Real.sqrt_pos.mpr hLpos
    have hone : (Vec3.new (v.x / Real.sqrt v.length_squared)
        (v.y / Real.sqrt v.length_squared)
        (v.z / Real.sqrt v.length_squared)).length_squared = 1 := by
      show v.x / Real.sqrt v.length_squared * (v.x / Real.sqrt v.length_squared) +
          v.y / Real.sqrt v.length_squared * (v.y / Real.sqrt v.length_squared) +
          v.z / Real.sqrt v.length_squared * (v.z / Real.sqrt v.length_squared) = 1
      rw [div_mul_div_comm, div_mul_div_comm, div_mul_div_comm, hsqrt,
        div_add_div_same, div_add_div_same]
      show v.length_squared / v.length_squared = 1
      exact div_self (ne_of_gt hLpos)
    have : (Vec3.new (v.x / Real.sqrt v.length_squared)
        (v.y / Real.sqrt v.length_squared)
        (v.z / Real.sqrt v.length_squared)).length = 1 := by
      unfold Vec3.length
      rw [hone, Real.sqrt_one]
    rw [this]
    norm_num

/-- Witness for C8 (amended) at `v = (0,0,2)` and `epsilon = 0`. -/
theorem C8_witness :
    (0 : ℝ) ≤ 0 ∧ 0 < Vec3.length (Vec3.new 0 0 2) ∧
    ∃ u, Vec3.try_normalize (Vec3.new 0 0 2) 0 = some u ∧
      |Vec3.length u - 1| ≤ 1e-5 := by
  have hlen : 0 < Vec3.length (Vec3.new 0 0 2) := by
    unfold Vec3.length
    apply Real.sqrt_pos.mpr
    norm_num [Vec3.length_squared, Vec3.new]
  exact ⟨le_refl 0, hlen, C8_unit_length_amended (Vec3.new 0 0 2) 0 (le_refl 0) hlen⟩

end SpacetimeMath
